import Mathlib

/-!
Verification of the cc-znp transaction engine (src/lib/ccznp.js).

The development shallowly embeds the engine as pure Lean functions:

* a small-step event-loop machine for the synchronous-request (SREQ) path:
  admission gating (`requestStep`), queueing and promotion
  (`scheduleNextSend`, `findEligible`, `promoFireStep`), the settle handler
  attached with `once` (`settleHandler`, `emitSRSP`), timers
  (`hardFireStep`, `promoFireStep`) and the `setImmediate` queue
  (`tickStep`);
* a model of the settle-time backlog sweep including the JS semantics of
  `new Array(this._backlog)` (`backlogSweep`, `jsNewArray`);
* the inbound frame handler (`parseMtIncomingData`, `mtIncomingDataHdlr`);
* the request build path through the schema translator (`requestBuild`);
* the fire-and-forget reset path of `_sendAREQ` (`sendAREQreset`, `areqStep`);
* the coalescing `_close` helper (`closeCall`, `closeComplete`).

Subsystem and command names are encoded as numeric tokens; callers are
assumed to pass them in the same representation throughout, as the
generated per-subsystem shorthands do.
-/

namespace CcZnp

/-- A synchronous transaction: the request id together with its
(subsystem, command) correlation pair.  The closures of `_sendSREQ`
(timers and the `once` response listener) all capture exactly this data. -/
structure Txn where
  reqId : Nat
  subsys : Nat
  cmd : Nat
deriving DecidableEq, Repr

/-- A Transmit Queue entry (ccznp.js lines 233-244): the stored `subsys`
and `cmd` fields used by the eligibility scan, plus the identity of the
request whose retry closure `fn` was captured. -/
structure Entry where
  subsys : Nat
  cmd : Nat
  reqId : Nat
deriving DecidableEq, Repr

/-- A Backlog entry (the `ownEvent` object pushed at lines 303-308):
its correlation pair and, standing in for JS object identity, the id of
the transaction that pushed it. -/
structure BEntry where
  subsys : Nat
  cmd : Nat
  owner : Nat
deriving DecidableEq, Repr

/-- The three settle outcomes delivered by the `once(srspEvt)` handler:
`__timeout__`, `__error__`, or a successful result. -/
inductive SettleResult where
  | timeout
  | commError
  | success
deriving DecidableEq, Repr

/-- A pending `setImmediate` task: either `txDeQueue` running a promoted
or dequeued entry (line 441), or the deferred backlog sweep of a settled
transaction (line 336). -/
inductive Task where
  | runEntry (e : Entry)
  | sweep (reqId : Nat)
deriving DecidableEq, Repr

/-- The engine state for the SREQ path: the fields of the `CcZnp`
instance together with the event-loop bookkeeping (attached `once`
listeners, armed timers, pending immediates) and observation logs
(`sent` frames, `settled` callback deliveries, `cbErrLog` deliveries
made by the catch clause of a queued retry closure). -/
structure St where
  inited : Bool
  spinLock : Bool
  resetting : Bool
  txQueue : List Entry
  backlog : List BEntry
  listeners : List Txn
  hardArmed : List Txn
  promoArmed : List Txn
  immediates : List Task
  sent : List Txn
  settled : List (Nat × SettleResult)
  cbErrLog : List (Nat × String)
deriving DecidableEq, Repr

/-- The collision test of the eligibility scan (lines 426-430):
a backlog entry blocks a queue entry with the same (subsystem, command). -/
def collides (b : BEntry) (s c : Nat) : Bool :=
  b.subsys == s && b.cmd == c

/-- The `findIndex` plus `splice` of `_scheduleNextSend(true)` (lines
423-435): return the first queue entry whose pair collides with no
backlog entry, together with the queue with that entry removed. -/
def findEligible (backlog : List BEntry) : List Entry → Option (Entry × List Entry)
  | [] => none
  | e :: rest =>
    if backlog.any (fun b => collides b e.subsys e.cmd) then
      match findEligible backlog rest with
      | none => none
      | some (e', rest') => some (e', e :: rest')
    else
      some (e, rest)

/-- `CcZnp.prototype._scheduleNextSend` (lines 417-448): when the queue
is non-empty, pick an entry (first eligible one if `early`, else the
head), remove it from the queue, defer its execution with
`setImmediate`, and report whether something was dispatched. -/
def scheduleNextSend (st : St) (early : Bool) : St × Bool :=
  if st.txQueue.isEmpty then (st, false)
  else if early then
    match findEligible st.backlog st.txQueue with
    | none => (st, false)
    | some (e, rest) =>
      ({ st with txQueue := rest, immediates := st.immediates ++ [Task.runEntry e] }, true)
  else
    match st.txQueue with
    | [] => (st, false)
    | e :: rest =>
      ({ st with txQueue := rest, immediates := st.immediates ++ [Task.runEntry e] }, true)

/-- The body of `_sendSREQ` after a successful frame build (lines
294-375): arm the 3500 ms hard timeout and the 1800 ms promotion timer,
attach the `once(srspEvt)` response listener, and send the frame. -/
def sendSREQ (st : St) (t : Txn) : St :=
  { st with
    hardArmed := st.hardArmed ++ [t],
    promoArmed := st.promoArmed ++ [t],
    listeners := st.listeners ++ [t],
    sent := st.sent ++ [t] }

/-- `CcZnp.prototype.request` on an initialized engine with valid
arguments, SREQ path (lines 232-252): if the spinlock is held, append a
queue entry carrying the retry closure and return; otherwise claim the
lock and dispatch synchronously. -/
def requestStep (st : St) (r s c : Nat) : St :=
  if st.spinLock then
    { st with txQueue := st.txQueue ++ [⟨s, c, r⟩] }
  else
    sendSREQ { st with spinLock := true } ⟨r, s, c⟩

/-- `CcZnp.prototype.request` including the initialization guard (line
220-221): a call on an engine that was closed and reverted to
uninitialized throws `Error('ccznp has not been initialized yet')`,
modelled as `Except.error`. -/
def requestJs (st : St) (r s c : Nat) : Except String St :=
  if st.inited = false then Except.error "ccznp has not been initialized yet"
  else Except.ok (requestStep st r s c)

/-- The retry closure stored in a Transmit Queue entry (lines 236-243):
re-invoke `request` with the captured arguments; a synchronous exception
of the inner call is caught and delivered to the callback of the request
as its error argument. -/
def entryFn (st : St) (e : Entry) : St :=
  match requestJs st e.reqId e.subsys e.cmd with
  | Except.ok st' => st'
  | Except.error ex => { st with cbErrLog := st.cbErrLog ++ [(e.reqId, ex)] }

/-- The unconditional mutations of the settle handler of `_sendSREQ`
(lines 323-350): release the spinlock, clear the hard timeout, defer
the backlog sweep with `setImmediate`, drop the own backlog entry, and
clear the promotion timer. -/
def settleSt1 (st : St) (t : Txn) : St :=
  { st with
    spinLock := false,
    hardArmed := st.hardArmed.filter (fun h => h.reqId != t.reqId),
    immediates := st.immediates ++ [Task.sweep t.reqId],
    backlog := st.backlog.filter (fun b => b.owner != t.reqId),
    promoArmed := st.promoArmed.filter (fun h => h.reqId != t.reqId) }

/-- The `once(srspEvt)` settle handler of `_sendSREQ` (lines 321-373):
read and release the spinlock to compute `hasSent` (a global-flag read
that conflates "gate busy" with "gate held by this transaction"), apply
the unconditional mutations, on `hasSent = false` dequeue the next
entry FIFO with no collision check, and deliver the outcome (a
successful result also clears the `_resetting` flag, line 370). -/
def settleHandler (st : St) (t : Txn) (result : SettleResult) : St :=
  let hasSent := !st.spinLock
  let st2 := if hasSent then settleSt1 st t else (scheduleNextSend (settleSt1 st t) false).1
  { st2 with
    resetting := if result = SettleResult.success then false else st2.resetting,
    settled := st2.settled ++ [(t.reqId, result)] }

/-- The listener-match test: an attached `once('SRSP:subsys:cmd')`
listener is fired by an emission on the same pair. -/
def matchesEvt (t : Txn) (s c : Nat) : Bool :=
  t.subsys == s && t.cmd == c

/-- An `emit('SRSP:subsys:cmd', result)` guarded by `listenerCount`
(lines 296-297, 492-495, 80-81): every currently attached `once`
listener for the pair is removed and its settle handler runs; with no
matching listener nothing happens. -/
def emitSRSP (st : St) (s c : Nat) (result : SettleResult) : St :=
  let fired := st.listeners.filter (fun t => matchesEvt t s c)
  let st' := { st with listeners := st.listeners.filter (fun t => !(matchesEvt t s c)) }
  fired.foldl (fun acc t => settleHandler acc t result) st'

/-- The `sreqTimeout` closure (lines 295-300): when the 3500 ms hard
timeout of a transaction fires, emit `__timeout__` on its correlation
event if a listener is present, then null out the timer handle. -/
def hardFireStep (st : St) (r : Nat) : St :=
  match st.hardArmed.find? (fun h => h.reqId == r) with
  | none => st
  | some t =>
    let st' := emitSRSP st t.subsys t.cmd SettleResult.timeout
    { st' with hardArmed := st'.hardArmed.filter (fun h => h.reqId != r) }

/-- The `sreqNextQueue` closure (lines 301-318): when the 1800 ms
promotion timer of a transaction fires, push its own backlog entry,
null out the timer, and on a successful early dispatch release the
spinlock. -/
def promoFireStep (st : St) (r : Nat) : St :=
  match st.promoArmed.find? (fun h => h.reqId == r) with
  | none => st
  | some t =>
    let st1 :=
      { st with
        backlog := st.backlog ++ [⟨t.subsys, t.cmd, r⟩],
        promoArmed := st.promoArmed.filter (fun h => h.reqId != r) }
    let p := scheduleNextSend st1 true
    if p.2 then { p.1 with spinLock := false } else p.1

/-- Run the oldest pending `setImmediate` task: `txDeQueue` executes the
stored retry closure; the deferred backlog sweep finds nothing, since
the snapshot `new Array(this._backlog)` holds only a reference to the
live array itself (see `backlogSweep_noop`). -/
def tickStep (st : St) : St :=
  match st.immediates with
  | [] => st
  | task :: rest =>
    let st' := { st with immediates := rest }
    match task with
    | Task.runEntry e => entryFn st' e
    | Task.sweep _ => st'

/-- External stimuli of the event loop: a caller invoking `request`, a
timer firing, an inbound SRSP reply or MT error frame, and one turn of
the `setImmediate` queue. -/
inductive Ev where
  | call (r s c : Nat)
  | promoFire (r : Nat)
  | hardFire (r : Nat)
  | reply (s c : Nat)
  | errFrame (s c : Nat)
  | tick
deriving DecidableEq, Repr

/-- One event-loop step of the engine.  An external `request` call on an
uninitialized engine throws to the caller and leaves the state
unchanged; an inbound reply settles matching listeners with a success
result, an MT error frame (the `SRSP:RES0:error` handler, lines 74-85)
with a communication error. -/
def step (st : St) : Ev → St
  | Ev.call r s c => if st.inited then requestStep st r s c else st
  | Ev.promoFire r => promoFireStep st r
  | Ev.hardFire r => hardFireStep st r
  | Ev.reply s c => emitSRSP st s c SettleResult.success
  | Ev.errFrame s c => emitSRSP st s c SettleResult.commError
  | Ev.tick => tickStep st

/-- The state of a freshly initialized engine (constructor, lines 61-67,
after the `_ready` event set `_init`). -/
def St.start : St :=
  { inited := true, spinLock := false, resetting := false,
    txQueue := [], backlog := [], listeners := [], hardArmed := [],
    promoArmed := [], immediates := [], sent := [], settled := [], cbErrLog := [] }

/-- Run the engine from the initialized state over a list of events. -/
def runEngine (evs : List Ev) : St :=
  evs.foldl step St.start

/-- Request ids of the external `request` calls of an event list. -/
def callIds : List Ev → List Nat
  | [] => []
  | Ev.call r _ _ :: rest => r :: callIds rest
  | _ :: rest => callIds rest

/-- Transactions sent on the wire and not yet settled. -/
def outstanding (st : St) : List Txn :=
  st.sent.filter (fun t => !(st.settled.any (fun p => p.1 == t.reqId)))

/-- No two transactions of the list share a (subsystem, command) pair. -/
def pairsDistinct : List Txn → Bool
  | [] => true
  | t :: rest =>
    rest.all (fun u => !(u.subsys == t.subsys && u.cmd == t.cmd)) && pairsDistinct rest

/-- Whether a pending immediate is the `txDeQueue` of an entry of the
given request. -/
def Task.isRunFor (r : Nat) : Task → Bool
  | Task.runEntry e => e.reqId == r
  | Task.sweep _ => false

/-- How many outcome deliveries the callback of request `r` has
received: settle-handler deliveries plus deliveries made by the catch
clause of its retry closure. -/
def deliveredCount (st : St) (r : Nat) : Nat :=
  st.settled.countP (fun p => p.1 == r) + st.cbErrLog.countP (fun p => p.1 == r)

/-- Conservation quantity for request `r`: the attached response
listener, the queue entry, the pending `txDeQueue` immediate and the
deliveries already made.  Every engine step moves a request between
these homes; only an external `request` call creates a new one. -/
def pendingCount (st : St) (r : Nat) : Nat :=
  st.listeners.countP (fun t => t.reqId == r)
    + st.txQueue.countP (fun e => e.reqId == r)
    + st.immediates.countP (Task.isRunFor r)
    + deliveredCount st r

/-- How many external `request` calls with request id `r` an event list
contains. -/
def callCount : List Ev → Nat → Nat
  | [], _ => 0
  | Ev.call r' _ _ :: rest, r => (if r' == r then 1 else 0) + callCount rest r
  | _ :: rest, r => callCount rest r

/-- A concrete schedule refuting the global at-most-one-per-pair
invariant.  Every step respects the real timers: request 0 (pair
(0,0)) is sent at t=0 and requests 1 and 2 (both pair (1,1)) are queued
immediately after; at t=1800 the promotion timer of request 0 fires,
records its backlog entry and promotes request 1 (eligible, pair
(1,1) distinct from (0,0)), releasing the spinlock; the next tick runs
the retry closure of request 1, which re-claims the spinlock and sends
it; at t=2000 the reply of request 0 arrives — its settle handler sees
the spinlock held (by request 1), wrongly concludes the gate was never
released for itself, releases it and FIFO-dequeues request 2 with no
collision check; the following ticks run the deferred sweep and then
the retry closure of request 2, which is sent while request 1 — same
pair (1,1) — is still outstanding. -/
def c2Trace : List Ev :=
  [Ev.call 0 0 0, Ev.call 1 1 1, Ev.call 2 1 1,
   Ev.promoFire 0, Ev.tick, Ev.reply 0 0, Ev.tick, Ev.tick]

/-- A state in which the single queued entry collides with the single
backlog entry, used to witness the skip branch of early promotion. -/
def blockedSt : St :=
  { St.start with
    spinLock := true,
    backlog := [⟨1, 1, 0⟩],
    txQueue := [⟨1, 1, 5⟩] }

/-! ### The settle-time backlog sweep (claim C3)

The sweep of `_sendSREQ` (lines 336-346) iterates over the snapshot
taken at line 286, `backlog = new Array(self._backlog)`.  JS values are
modelled with explicit identity tags, since `indexOf` compares with
strict equality `===`, which on objects is reference identity. -/

/-- A JS value that can appear in the sweep: a backlog-entry object
(`{evt, subsys, cmd}`) or an array object, each with an identity tag. -/
inductive BVal where
  | entryObj (tag subsys cmd : Nat)
  | arrObj (tag : Nat)
deriving DecidableEq, Repr

/-- JS strict equality `===` on objects: reference identity, true only
for the same constructor with the same identity tag. -/
def jsEq : BVal → BVal → Bool
  | BVal.entryObj t _ _, BVal.entryObj u _ _ => t == u
  | BVal.arrObj t, BVal.arrObj u => t == u
  | _, _ => false

/-- JS `Array.prototype.indexOf` with `===` comparison, returning `-1`
when the value is absent. -/
def jsIndexOfAux : List BVal → BVal → Int → Int
  | [], _, _ => -1
  | a :: rest, x, i => if jsEq a x then i else jsIndexOfAux rest x (i + 1)

/-- JS `l.indexOf(x)`. -/
def jsIndexOf (l : List BVal) (x : BVal) : Int :=
  jsIndexOfAux l x 0

/-- JS `new Array(x)` applied to a single non-numeric argument: the
one-element array `[x]`.  This is what line 286 computes — the snapshot
holds one element, a reference to the live backlog array itself, not a
copy of its elements. -/
def jsNewArray (x : BVal) : List BVal :=
  [x]

/-- The deferred sweep body (lines 337-345): for every element of the
snapshot, look it up in the live backlog with `indexOf`; when found,
emit `__timeout__` on its event (force-resolving it) and splice it out.
Returns the live backlog after the sweep and the list of force-resolved
entries. -/
def backlogSweep (snapshot : List BVal) (live : List BVal) : List BVal × List BVal :=
  snapshot.foldl
    (fun acc be =>
      let pos := jsIndexOf acc.1 be
      if pos != -1 then (acc.1.eraseIdx pos.toNat, acc.2 ++ [be])
      else acc)
    (live, [])

/-- The live backlog built from entry objects only, which is all the
engine ever pushes (lines 303-308). -/
def entriesOnly (l : List (Nat × Nat × Nat)) : List BVal :=
  l.map (fun e => BVal.entryObj e.1 e.2.1 e.2.2)

/-! ### The inbound frame path (claim C4) -/

/-- A decoded UNPI frame as delivered to `_parseMtIncomingData`
(line 451): `{ sof, len, type, subsys, cmd, payload, fcs, csum }`,
with the start-of-frame and length fields omitted. -/
structure Frame where
  type : Nat
  subsys : Nat
  cmd : Nat
  payload : List Nat
  fcs : Nat
  csum : Nat
deriving DecidableEq, Repr

/-- MT command types as resolved by `zmeta.CmdType.get(..).key`. -/
inductive CmdType where
  | POLL
  | SREQ
  | AREQ
  | SRSP
deriving DecidableEq, Repr

/-- Observable event emissions of the inbound path: the unconditional
pre-dispatch `data` event (line 455), a correlation `SRSP:subsys:cmd`
event (line 495), the generic `AREQ` notification (line 505), and the
dedicated `AREQ:SYS:RESET` event (line 509). -/
inductive Emission where
  | dataEvt (f : Frame)
  | srsp (subsys cmd : Nat) (result : List Nat)
  | areqNotif (subsys ind : Nat) (data : List Nat)
  | areqSysReset (data : List Nat)
deriving DecidableEq, Repr

/-- The numeric token of the symbolic subsystem name `SYS`. -/
def sysName : Nat := 1

/-- The numeric token of the symbolic command name `resetInd`. -/
def resetIndName : Nat := 9

/-- `CcZnp.prototype._mtIncomingDataHdlr` (lines 476-512): drop the
frame when an error was raised while decoding it; emit the correlation
event of an SRSP only when a listener is registered; emit the generic
notification for an AREQ, plus the reset-completion event for
`SYS:resetInd`. -/
def mtIncomingDataHdlr (hasListener : Nat → Nat → Bool) (err : Bool)
    (ty : CmdType) (subsys cmd : Nat) (result : List Nat) : List Emission :=
  if err then []
  else if ty = CmdType.SRSP then
    if hasListener subsys cmd then [Emission.srsp subsys cmd result] else []
  else if ty = CmdType.AREQ then
    Emission.areqNotif subsys cmd result ::
      (if subsys = sysName ∧ cmd = resetIndName then [Emission.areqSysReset result] else [])
  else []

/-- `CcZnp.prototype._parseMtIncomingData` (lines 450-474): emit the
`data` event first, then verify the checksum — `data.fcs !== data.csum`
throws `Error('Invalid checksum')`, caught and routed to the handler as
an error, which drops the frame.  Otherwise resolve the symbolic names
(`new ZpiObject`, `zmeta.CmdType.get` — either may throw, also caught
and dropped), decode the payload (a decode error is likewise dropped),
and hand the result to `mtIncomingDataHdlr`.  The schema translator is
external; it enters as the oracles `resolveCmd`, `typeOf`, `decodeP`. -/
def parseMtIncomingData (resolveCmd : Nat → Nat → Option (Nat × Nat))
    (typeOf : Nat → Option CmdType)
    (decodeP : CmdType → List Nat → Except Unit (List Nat))
    (hasListener : Nat → Nat → Bool) (f : Frame) : List Emission :=
  Emission.dataEvt f ::
    (if f.fcs ≠ f.csum then []
     else
       match resolveCmd f.subsys f.cmd, typeOf f.type with
       | some (s, c), some ty =>
         (match decodeP ty f.payload with
          | Except.ok result => mtIncomingDataHdlr hasListener false ty s c result
          | Except.error _ => mtIncomingDataHdlr hasListener true ty s c [])
       | _, _ => [])

/-- A concrete frame whose checksum fields mismatch. -/
def badFrame : Frame :=
  { type := 0, subsys := 0, cmd := 0, payload := [], fcs := 1, csum := 2 }

/-! ### The request build path (claim C5) -/

/-- The wire type a command resolves to. -/
inductive ZType where
  | SREQ
  | AREQ
deriving DecidableEq, Repr

/-- The observable outcome of a `request` call that did not throw:
either the build-error callback of `_sendSREQ`/`_sendAREQ` (lines
289-292, 383-386) with nothing sent, or a frame of the resolved type
sent on the wire. -/
inductive ReqOutcome where
  | cbBuildError
  | sentSREQ (payload : List Nat)
  | sentAREQ (payload : List Nat)
deriving DecidableEq, Repr

/-- The translator interactions of `request` on an initialized engine
with a valid argument object and callback and an idle gate: line 229
runs `argObj = new ZpiObject(subsys, cmd, valObj)` outside any
`try`/`catch`, so a resolution failure (modelled as `Except.error`)
propagates synchronously to the caller; with the command resolved,
`_sendSREQ`/`_sendAREQ` call `argObj.frame()` and deliver a build error
through the callback when it yields nothing. -/
def requestBuild (resolve : Except String ZType) (frame : Option (List Nat)) :
    Except String ReqOutcome :=
  match resolve with
  | Except.error e => Except.error e
  | Except.ok ty =>
    match frame with
    | none => Except.ok ReqOutcome.cbBuildError
    | some p =>
      Except.ok (match ty with
        | ZType.SREQ => ReqOutcome.sentSREQ p
        | ZType.AREQ => ReqOutcome.sentAREQ p)

/-! ### The fire-and-forget reset path (claim C6) -/

/-- The engine state relevant to `_sendAREQ` with the reset command:
the reset flag and spinlock, the Transmit Queue, the one-shot
`AREQ:SYS:RESET` subscription, the 30000 ms fail-safe timer, the log of
deliveries to the reset caller (`true` = `callback(null)`), and the log
of deliveries to callbacks of queued entries. -/
structure AreqSt where
  resetting : Bool
  spinLock : Bool
  txQueue : List Entry
  resetListener : Bool
  failsafeArmed : Bool
  resetCb : List Bool
  qcbLog : List Nat
deriving DecidableEq, Repr

/-- The reset branch of `_sendAREQ` (lines 388-406): set the reset
flag, discard the whole Transmit Queue without touching the callbacks
of the discarded entries, subscribe once to `AREQ:SYS:RESET`, and arm
the 30000 ms fail-safe. -/
def sendAREQreset (st : AreqSt) : AreqSt :=
  { st with
    resetting := true,
    txQueue := [],
    resetListener := true,
    failsafeArmed := true }

/-- Events that can reach the reset path afterwards: the device
reset-completion notification and the fail-safe timer firing. -/
inductive AreqEv where
  | resetInd
  | failsafe
deriving DecidableEq, Repr

/-- One step of the reset path: the `once('AREQ:SYS:RESET')` handler
(lines 394-399) clears the reset flag, releases the lock and invokes
the caller with `null`; the fail-safe (lines 403-406) releases the lock
when the engine is still resetting, without touching the callback. -/
def areqStep (st : AreqSt) : AreqEv → AreqSt
  | AreqEv.resetInd =>
    if st.resetListener then
      { st with
        resetListener := false, resetting := false, spinLock := false,
        resetCb := st.resetCb ++ [true] }
    else st
  | AreqEv.failsafe =>
    if st.failsafeArmed then
      let st' := { st with failsafeArmed := false }
      if st'.resetting then { st' with spinLock := false } else st'
    else st

/-- Run the reset path over a list of events. -/
def runAreq (st : AreqSt) (evs : List AreqEv) : AreqSt :=
  evs.foldl areqStep st

/-- The state of the engine at the moment `_sendAREQ` is entered with
the reset command: the caller holds the spinlock and `q` requests sit in
the Transmit Queue. -/
def areqStart (q : List Entry) : AreqSt :=
  { resetting := false, spinLock := true, txQueue := q,
    resetListener := false, failsafeArmed := false, resetCb := [], qcbLog := [] }

/-! ### The coalescing close helper (claim C8) -/

/-- The state of the `_close` helper (lines 87-102): whether the serial
port is open, the shared `closeCbs` array, how many times
`sp.close(..)` has been initiated, and the callbacks invoked so far
(in invocation order). -/
structure CloseSt where
  spOpen : Bool
  closeCbs : List Nat
  spCloseCount : Nat
  invoked : List Nat
deriving DecidableEq, Repr

/-- One call of `CcZnp._close(callback)` (lines 88-102): with the port
absent or closed the callback is invoked at once; otherwise the callback
is pushed onto `closeCbs`, and only the call that makes the array length
1 initiates the underlying `sp.close`. -/
def closeCall (st : CloseSt) (cb : Nat) : CloseSt :=
  if !st.spOpen then { st with invoked := st.invoked ++ [cb] }
  else
    let st' := { st with closeCbs := st.closeCbs ++ [cb] }
    if st'.closeCbs.length = 1 then { st' with spCloseCount := st'.spCloseCount + 1 }
    else st'

/-- The completion callback passed to `sp.close` (lines 95-100): invoke
every collected callback in order, then reset the array; the port is
closed from here on. -/
def closeComplete (st : CloseSt) : CloseSt :=
  { st with
    invoked := st.invoked ++ st.closeCbs,
    closeCbs := [],
    spOpen := false }

/-- The `_close` state at engine construction: port open, no pending
close, nothing invoked. -/
def closeStart : CloseSt :=
  { spOpen := true, closeCbs := [], spCloseCount := 0, invoked := [] }

/-! ## Lemmas

Counting lemmas establishing that every engine step conserves
`pendingCount` except an external `request` call, which raises it by at
most one. -/

theorem countP_filter_split {α : Type} (l : List α) (p m : α → Bool) :
    l.countP p = (l.filter m).countP p + (l.filter (fun a => !(m a))).countP p := by
  induction l with
  | nil => simp
  | cons a l ih =>
    by_cases h : m a <;>
      simp [List.filter_cons, h, List.countP_cons, ih] <;> omega

theorem findEligible_countP (backlog : List BEntry) (p : Entry → Bool) :
    ∀ (q rest : List Entry) (e : Entry), findEligible backlog q = some (e, rest) →
      q.countP p = rest.countP p + (if p e then 1 else 0) := by
  intro q
  induction q with
  | nil => intro rest e h; simp [findEligible] at h
  | cons a q ih =>
    intro rest e h
    by_cases hb : backlog.any (fun b => collides b a.subsys a.cmd)
    · simp only [findEligible, hb, if_true] at h
      cases heq : findEligible backlog q with
      | none => rw [heq] at h; simp at h
      | some pr =>
        obtain ⟨e', rest'⟩ := pr
        rw [heq] at h
        simp only [Option.some.injEq, Prod.mk.injEq] at h
        obtain ⟨rfl, rfl⟩ := h
        have := ih rest' e' heq
        simp [List.countP_cons, this]
        omega
    · simp only [findEligible, hb, if_false, Option.some.injEq, Prod.mk.injEq] at h
      obtain ⟨rfl, rfl⟩ := h
      simp [List.countP_cons]

theorem scheduleNextSend_fields (st : St) (early : Bool) :
    (scheduleNextSend st early).1.listeners = st.listeners ∧
    (scheduleNextSend st early).1.settled = st.settled ∧
    (scheduleNextSend st early).1.cbErrLog = st.cbErrLog ∧
    (scheduleNextSend st early).1.spinLock = st.spinLock ∧
    (scheduleNextSend st early).1.resetting = st.resetting ∧
    (scheduleNextSend st early).1.inited = st.inited ∧
    (scheduleNextSend st early).1.sent = st.sent ∧
    (scheduleNextSend st early).1.backlog = st.backlog ∧
    (scheduleNextSend st early).1.hardArmed = st.hardArmed ∧
    (scheduleNextSend st early).1.promoArmed = st.promoArmed := by
  unfold scheduleNextSend
  repeat' split
  all_goals exact ⟨rfl, rfl, rfl, rfl, rfl, rfl, rfl, rfl, rfl, rfl⟩

theorem pendingCount_scheduleNextSend (st : St) (early : Bool) (r : Nat) :
    pendingCount (scheduleNextSend st early).1 r = pendingCount st r := by
  unfold scheduleNextSend
  split
  · rfl
  · split
    · cases heq : findEligible st.backlog st.txQueue with
      | none => simp [heq]
      | some pr =>
        obtain ⟨e, rest⟩ := pr
        have hc := findEligible_countP st.backlog (fun e => e.reqId == r) st.txQueue rest e heq
        simp [heq, pendingCount, deliveredCount, List.countP_append, hc,
          List.countP_cons, Task.isRunFor]
        omega
    · cases hq : st.txQueue with
      | nil => simp
      | cons e rest =>
        simp [pendingCount, deliveredCount, List.countP_append, List.countP_cons,
          Task.isRunFor, hq]
        omega

theorem settled_condSched (st1 : St) (b : Bool) :
    (if b then st1 else (scheduleNextSend st1 false).1).settled = st1.settled := by
  cases b
  · exact (scheduleNextSend_fields st1 false).2.1
  · rfl

theorem cbErrLog_condSched (st1 : St) (b : Bool) :
    (if b then st1 else (scheduleNextSend st1 false).1).cbErrLog = st1.cbErrLog := by
  cases b
  · exact (scheduleNextSend_fields st1 false).2.2.1
  · rfl

theorem listeners_condSched (st1 : St) (b : Bool) :
    (if b then st1 else (scheduleNextSend st1 false).1).listeners = st1.listeners := by
  cases b
  · exact (scheduleNextSend_fields st1 false).1
  · rfl

theorem sent_condSched (st1 : St) (b : Bool) :
    (if b then st1 else (scheduleNextSend st1 false).1).sent = st1.sent := by
  cases b
  · exact (scheduleNextSend_fields st1 false).2.2.2.2.2.2.1
  · rfl

theorem inited_condSched (st1 : St) (b : Bool) :
    (if b then st1 else (scheduleNextSend st1 false).1).inited = st1.inited := by
  cases b
  · exact (scheduleNextSend_fields st1 false).2.2.2.2.2.1
  · rfl

theorem resetting_condSched (st1 : St) (b : Bool) :
    (if b then st1 else (scheduleNextSend st1 false).1).resetting = st1.resetting := by
  cases b
  · exact (scheduleNextSend_fields st1 false).2.2.2.2.1
  · rfl

theorem pendingCount_condSched (st1 : St) (b : Bool) (r : Nat) :
    pendingCount (if b then st1 else (scheduleNextSend st1 false).1) r
      = pendingCount st1 r := by
  cases b
  · exact pendingCount_scheduleNextSend st1 false r
  · rfl

theorem deliveredCount_finalize (st2 : St) (t : Txn) (res : SettleResult) (b : Bool) (r : Nat) :
    deliveredCount { st2 with resetting := b, settled := st2.settled ++ [(t.reqId, res)] } r
      = deliveredCount st2 r + (if t.reqId == r then 1 else 0) := by
  simp [deliveredCount, List.countP_append, List.countP_cons]
  omega

theorem pendingCount_finalize (st2 : St) (t : Txn) (res : SettleResult) (b : Bool) (r : Nat) :
    pendingCount { st2 with resetting := b, settled := st2.settled ++ [(t.reqId, res)] } r
      = pendingCount st2 r + (if t.reqId == r then 1 else 0) := by
  simp [pendingCount, deliveredCount, List.countP_append, List.countP_cons]
  omega

theorem deliveredCount_settleHandler (st : St) (t : Txn) (res : SettleResult) (r : Nat) :
    deliveredCount (settleHandler st t res) r
      = deliveredCount st r + (if t.reqId == r then 1 else 0) := by
  show deliveredCount
    { (if (!st.spinLock) then (settleSt1 st t) else (scheduleNextSend (settleSt1 st t) false).1) with
      resetting := if res = SettleResult.success then false
        else (if (!st.spinLock) then (settleSt1 st t) else (scheduleNextSend (settleSt1 st t) false).1).resetting,
      settled := (if (!st.spinLock) then (settleSt1 st t) else (scheduleNextSend (settleSt1 st t) false).1).settled
        ++ [(t.reqId, res)] } r = _
  rw [deliveredCount_finalize]
  have h1 : deliveredCount
      (if (!st.spinLock) then (settleSt1 st t) else (scheduleNextSend (settleSt1 st t) false).1) r
      = deliveredCount (settleSt1 st t) r := by
    unfold deliveredCount
    rw [settled_condSched, cbErrLog_condSched]
  rw [h1]
  rfl

theorem pendingCount_settleHandler (st : St) (t : Txn) (res : SettleResult) (r : Nat) :
    pendingCount (settleHandler st t res) r
      = pendingCount st r + (if t.reqId == r then 1 else 0) := by
  show pendingCount
    { (if (!st.spinLock) then (settleSt1 st t) else (scheduleNextSend (settleSt1 st t) false).1) with
      resetting := if res = SettleResult.success then false
        else (if (!st.spinLock) then (settleSt1 st t) else (scheduleNextSend (settleSt1 st t) false).1).resetting,
      settled := (if (!st.spinLock) then (settleSt1 st t) else (scheduleNextSend (settleSt1 st t) false).1).settled
        ++ [(t.reqId, res)] } r = _
  rw [pendingCount_finalize, pendingCount_condSched]
  have h2 : pendingCount (settleSt1 st t) r = pendingCount st r := by
    simp [settleSt1, pendingCount, deliveredCount, List.countP_append, List.countP_cons,
      Task.isRunFor]
  rw [h2]

theorem deliveredCount_foldl_settle (ts : List Txn) (st : St) (res : SettleResult) (r : Nat) :
    deliveredCount (ts.foldl (fun acc t => settleHandler acc t res) st) r
      = deliveredCount st r + ts.countP (fun t => t.reqId == r) := by
  induction ts generalizing st with
  | nil => simp
  | cons t ts ih =>
    simp only [List.foldl_cons, ih, deliveredCount_settleHandler, List.countP_cons]
    omega

theorem pendingCount_foldl_settle (ts : List Txn) (st : St) (res : SettleResult) (r : Nat) :
    pendingCount (ts.foldl (fun acc t => settleHandler acc t res) st) r
      = pendingCount st r + ts.countP (fun t => t.reqId == r) := by
  induction ts generalizing st with
  | nil => simp
  | cons t ts ih =>
    simp only [List.foldl_cons, ih, pendingCount_settleHandler, List.countP_cons]
    omega

theorem pendingCount_emitSRSP (st : St) (s c : Nat) (res : SettleResult) (r : Nat) :
    pendingCount (emitSRSP st s c res) r = pendingCount st r := by
  unfold emitSRSP
  rw [pendingCount_foldl_settle]
  have hsplit := countP_filter_split st.listeners
    (fun t => t.reqId == r) (fun t => matchesEvt t s c)
  have hswap : (st.listeners.filter (fun t => matchesEvt t s c)).countP (fun t => t.reqId == r)
      = (st.listeners.filter (fun t => matchesEvt t s c)).countP (fun t => t.reqId == r) := rfl
  simp only [pendingCount, deliveredCount]
  simp only [List.countP_filter]
  simp only [pendingCount, deliveredCount, List.countP_filter] at hsplit ⊢
  omega

theorem deliveredCount_emitSRSP (st : St) (s c : Nat) (res : SettleResult) (r : Nat) :
    deliveredCount (emitSRSP st s c res) r
      = deliveredCount st r
        + (st.listeners.filter (fun t => matchesEvt t s c)).countP (fun t => t.reqId == r) := by
  unfold emitSRSP
  rw [deliveredCount_foldl_settle]
  rfl

theorem pendingCount_requestStep (st : St) (r' s c : Nat) (r : Nat) :
    pendingCount (requestStep st r' s c) r
      = pendingCount st r + (if r' == r then 1 else 0) := by
  unfold requestStep
  split
  · simp [pendingCount, deliveredCount, List.countP_append, List.countP_cons]
    omega
  · simp [sendSREQ, pendingCount, deliveredCount, List.countP_append, List.countP_cons]
    omega

theorem pendingCount_entryFn (st : St) (e : Entry) (r : Nat) :
    pendingCount (entryFn st e) r = pendingCount st r + (if e.reqId == r then 1 else 0) := by
  cases hin : st.inited
  · simp [entryFn, requestJs, hin, pendingCount, deliveredCount,
      List.countP_append, List.countP_cons]
    omega
  · simp [entryFn, requestJs, hin, pendingCount_requestStep]

theorem pendingCount_tickStep (st : St) (r : Nat) :
    pendingCount (tickStep st) r = pendingCount st r := by
  unfold tickStep
  cases him : st.immediates with
  | nil => rfl
  | cons task rest =>
    cases task with
    | runEntry e =>
      rw [pendingCount_entryFn]
      simp [pendingCount, deliveredCount, him, List.countP_cons, Task.isRunFor]
      omega
    | sweep q =>
      simp [pendingCount, deliveredCount, him, List.countP_cons, Task.isRunFor]

theorem pendingCount_promoFireStep (st : St) (q : Nat) (r : Nat) :
    pendingCount (promoFireStep st q) r = pendingCount st r := by
  unfold promoFireStep
  cases hf : st.promoArmed.find? (fun h => h.reqId == q) with
  | none => rfl
  | some t =>
    simp only []
    split
    · show pendingCount { (scheduleNextSend _ true).1 with spinLock := false } r = _
      have : pendingCount { (scheduleNextSend
          { st with
            backlog := st.backlog ++ [⟨t.subsys, t.cmd, q⟩],
            promoArmed := st.promoArmed.filter (fun h => h.reqId != q) } true).1
          with spinLock := false } r
          = pendingCount (scheduleNextSend
          { st with
            backlog := st.backlog ++ [⟨t.subsys, t.cmd, q⟩],
            promoArmed := st.promoArmed.filter (fun h => h.reqId != q) } true).1 r := rfl
      rw [this, pendingCount_scheduleNextSend]
      simp [pendingCount, deliveredCount]
    · rw [pendingCount_scheduleNextSend]
      simp [pendingCount, deliveredCount]

theorem pendingCount_hardFireStep (st : St) (q : Nat) (r : Nat) :
    pendingCount (hardFireStep st q) r = pendingCount st r := by
  unfold hardFireStep
  cases hf : st.hardArmed.find? (fun h => h.reqId == q) with
  | none => rfl
  | some t =>
    simp only []
    have h1 : pendingCount { emitSRSP st t.subsys t.cmd SettleResult.timeout with
        hardArmed := (emitSRSP st t.subsys t.cmd SettleResult.timeout).hardArmed.filter
          (fun h => h.reqId != q) } r
        = pendingCount (emitSRSP st t.subsys t.cmd SettleResult.timeout) r := rfl
    rw [h1, pendingCount_emitSRSP]

theorem pendingCount_step (st : St) (ev : Ev) (r : Nat) :
    pendingCount (step st ev) r
      ≤ pendingCount st r + (match ev with
          | Ev.call r' _ _ => if r' == r then 1 else 0
          | _ => 0) := by
  cases ev with
  | call r' s c =>
    simp only [step]
    split
    · rw [pendingCount_requestStep]
    · exact Nat.le_add_right _ _
  | promoFire q => simp only [step]; rw [pendingCount_promoFireStep]; omega
  | hardFire q => simp only [step]; rw [pendingCount_hardFireStep]; omega
  | reply s c => simp only [step]; rw [pendingCount_emitSRSP]; omega
  | errFrame s c => simp only [step]; rw [pendingCount_emitSRSP]; omega
  | tick => simp only [step]; rw [pendingCount_tickStep]; omega

theorem pendingCount_foldl_step (evs : List Ev) (st : St) (r : Nat) :
    pendingCount (evs.foldl step st) r ≤ pendingCount st r + callCount evs r := by
  induction evs generalizing st with
  | nil => simp [callCount]
  | cons ev evs ih =>
    have h1 := ih (step st ev)
    have h2 := pendingCount_step st ev r
    cases ev <;> simp only [List.foldl_cons, callCount] at h1 h2 ⊢ <;> omega

theorem pendingCount_runEngine (evs : List Ev) (r : Nat) :
    pendingCount (runEngine evs) r ≤ callCount evs r := by
  have := pendingCount_foldl_step evs St.start r
  have h0 : pendingCount St.start r = 0 := rfl
  unfold runEngine
  omega

theorem callCount_eq_countP (evs : List Ev) (r : Nat) :
    callCount evs r = (callIds evs).countP (fun x => x == r) := by
  induction evs with
  | nil => rfl
  | cons ev evs ih =>
    cases ev <;> simp [callCount, callIds, List.countP_cons, ih] <;> omega

theorem callCount_le_one (evs : List Ev) (h : (callIds evs).Nodup) (r : Nat) :
    callCount evs r ≤ 1 := by
  rw [callCount_eq_countP]
  have := List.nodup_iff_count_le_one.mp h r
  rw [List.count_eq_countP] at this
  exact this

theorem deliveredCount_le_pendingCount (st : St) (r : Nat) :
    deliveredCount st r ≤ pendingCount st r := by
  unfold pendingCount
  omega

theorem runEngine_append (evs : List Ev) (ev : Ev) :
    runEngine (evs ++ [ev]) = step (runEngine evs) ev := by
  unfold runEngine
  rw [List.foldl_append]
  rfl

theorem fired_countP_one (st : St) (t : Txn) (r : Nat)
    (ht : t ∈ st.listeners) (hr : t.reqId = r)
    (hb : st.listeners.countP (fun u => u.reqId == r) ≤ 1) :
    (st.listeners.filter (fun u => matchesEvt u t.subsys t.cmd)).countP
      (fun u => u.reqId == r) = 1 := by
  have hmem : t ∈ st.listeners.filter (fun u => matchesEvt u t.subsys t.cmd) :=
    List.mem_filter.mpr ⟨ht, by simp [matchesEvt]⟩
  have hpos : 0 < (st.listeners.filter (fun u => matchesEvt u t.subsys t.cmd)).countP
      (fun u => u.reqId == r) :=
    List.countP_pos_iff.mpr ⟨t, hmem, by simp [hr]⟩
  have hsplit := countP_filter_split st.listeners
    (fun u => u.reqId == r) (fun u => matchesEvt u t.subsys t.cmd)
  omega

/-! ## Claim theorems -/

/-- C1: over every event-loop run in which request ids are not reused,
the callback of a request is invoked at most once in total, and a
request whose response listener is still attached (sent, not yet
settled) has received no invocation and receives exactly one when the
first termination trigger for its correlation pair arrives — a matching
reply or a device-signaled error frame; any later trigger leaves the
count at one. -/
theorem c1_single_settlement (evs : List Ev) (h : (callIds evs).Nodup) (r : Nat) :
    deliveredCount (runEngine evs) r ≤ 1 ∧
    (∀ t, t ∈ (runEngine evs).listeners → t.reqId = r →
      deliveredCount (runEngine evs) r = 0 ∧
      deliveredCount (runEngine (evs ++ [Ev.reply t.subsys t.cmd])) r = 1 ∧
      deliveredCount (runEngine (evs ++ [Ev.errFrame t.subsys t.cmd])) r = 1) := by
  have hpend := pendingCount_runEngine evs r
  have hcall := callCount_le_one evs h r
  have hdle := deliveredCount_le_pendingCount (runEngine evs) r
  refine ⟨by omega, ?_⟩
  intro t ht hr
  have hdecomp : pendingCount (runEngine evs) r
      = (runEngine evs).listeners.countP (fun u => u.reqId == r)
        + (runEngine evs).txQueue.countP (fun e => e.reqId == r)
        + (runEngine evs).immediates.countP (Task.isRunFor r)
        + deliveredCount (runEngine evs) r := rfl
  have hlpos : 0 < (runEngine evs).listeners.countP (fun u => u.reqId == r) :=
    List.countP_pos_iff.mpr ⟨t, ht, by simp [hr]⟩
  have hzero : deliveredCount (runEngine evs) r = 0 := by omega
  have hfired := fired_countP_one (runEngine evs) t r ht hr (by omega)
  refine ⟨hzero, ?_, ?_⟩
  · have hrun : runEngine (evs ++ [Ev.reply t.subsys t.cmd])
        = emitSRSP (runEngine evs) t.subsys t.cmd SettleResult.success := by
      rw [runEngine_append]; rfl
    rw [hrun, deliveredCount_emitSRSP, hzero, hfired]
  · have hrun : runEngine (evs ++ [Ev.errFrame t.subsys t.cmd])
        = emitSRSP (runEngine evs) t.subsys t.cmd SettleResult.commError := by
      rw [runEngine_append]; rfl
    rw [hrun, deliveredCount_emitSRSP, hzero, hfired]

/-- Witness for C1: a concrete run in which the hard timeout fires and
a matching reply arrives afterwards; the hypothesis holds and the
callback of the request is delivered exactly one outcome. -/
theorem c1_single_settlement_witness :
    (callIds [Ev.call 0 0 0, Ev.hardFire 0, Ev.reply 0 0]).Nodup ∧
    deliveredCount (runEngine [Ev.call 0 0 0, Ev.hardFire 0, Ev.reply 0 0]) 0 ≤ 1 ∧
    deliveredCount (runEngine [Ev.call 0 0 0, Ev.hardFire 0, Ev.reply 0 0]) 0 = 1 :=
  ⟨by decide,
   (c1_single_settlement [Ev.call 0 0 0, Ev.hardFire 0, Ev.reply 0 0] (by decide) 0).1,
   by decide⟩

theorem findEligible_some (backlog : List BEntry) :
    ∀ (q rest : List Entry) (e : Entry), findEligible backlog q = some (e, rest) →
      e ∈ q ∧ backlog.all (fun b => !(collides b e.subsys e.cmd)) = true := by
  intro q
  induction q with
  | nil => intro rest e h; simp [findEligible] at h
  | cons a q ih =>
    intro rest e h
    by_cases hb : backlog.any (fun b => collides b a.subsys a.cmd)
    · simp only [findEligible, hb, if_true] at h
      cases heq : findEligible backlog q with
      | none => rw [heq] at h; simp at h
      | some pr =>
        obtain ⟨e', rest'⟩ := pr
        rw [heq] at h
        simp only [Option.some.injEq, Prod.mk.injEq] at h
        obtain ⟨rfl, rfl⟩ := h
        obtain ⟨hmem, hall⟩ := ih rest' e' heq
        exact ⟨List.mem_cons_of_mem _ hmem, hall⟩
    · simp only [findEligible, hb, if_false, Option.some.injEq, Prod.mk.injEq] at h
      obtain ⟨rfl, rfl⟩ := h
      refine ⟨List.mem_cons_self _ _, ?_⟩
      simp only [List.any_eq_true, not_exists, not_and] at hb
      simp only [List.all_eq_true, Bool.not_eq_true']
      intro b hbmem
      exact Bool.not_eq_true _ ▸ (by simpa using hb b hbmem)

theorem findEligible_none (backlog : List BEntry) :
    ∀ q : List Entry, findEligible backlog q = none →
      ∀ e ∈ q, backlog.any (fun b => collides b e.subsys e.cmd) = true := by
  intro q
  induction q with
  | nil => intro _ e he; simp at he
  | cons a q ih =>
    intro h e he
    by_cases hb : backlog.any (fun b => collides b a.subsys a.cmd)
    · simp only [findEligible, hb, if_true] at h
      cases heq : findEligible backlog q with
      | none =>
        rcases List.mem_cons.mp he with rfl | hmem
        · exact hb
        · exact ih heq e hmem
      | some pr =>
        obtain ⟨e', r'⟩ := pr
        rw [heq] at h
        simp at h
    · simp only [findEligible, hb, if_false] at h
      simp at h

/-- C2 counterexample: the claimed invariant — at every point in time
no two outstanding synchronous transactions share a (subsystem,
command) pair — fails on a realizable schedule (`c2Trace`): after the
reply of the first transaction arrives during the promotion window of a
second one, the settle handler FIFO-dispatches a third request whose
pair equals that of the still-outstanding promoted transaction. -/
theorem c2_counterexample :
    ¬ ∀ evs : List Ev, pairsDistinct (outstanding (runEngine evs)) = true :=
  fun hall => absurd (hall c2Trace) (by decide)

/-- C2 (amended): the early-promotion dequeue itself is collision-safe:
an entry it returns collides with no current Backlog entry, and when
every queued entry collides it dispatches nothing — `_scheduleNextSend`
leaves the state untouched and reports no dispatch.  (The global
at-most-one-per-pair invariant does not follow: the settle-time FIFO
dequeue performs no collision check, see `c2_counterexample`.) -/
theorem c2_early_promotion_serializes (st : St) :
    (∀ e rest, findEligible st.backlog st.txQueue = some (e, rest) →
      e ∈ st.txQueue ∧ st.backlog.all (fun b => !(collides b e.subsys e.cmd)) = true) ∧
    (findEligible st.backlog st.txQueue = none →
      (∀ e ∈ st.txQueue, st.backlog.any (fun b => collides b e.subsys e.cmd) = true) ∧
      scheduleNextSend st true = (st, false)) := by
  refine ⟨fun e rest h => findEligible_some st.backlog st.txQueue rest e h, fun h => ⟨findEligible_none st.backlog st.txQueue h, ?_⟩⟩
  unfold scheduleNextSend
  cases hq : st.txQueue with
  | nil => simp
  | cons a q =>
    rw [hq] at h
    simp only [List.isEmpty_cons, if_false, if_true, h]
    simp [h]

/-- Witness for C2 (amended), at `blockedSt`: the one queued entry
collides with the one backlog entry, so the scan returns nothing and
early promotion dispatches nothing. -/
theorem c2_early_promotion_serializes_witness :
    findEligible blockedSt.backlog blockedSt.txQueue = none ∧
    scheduleNextSend blockedSt true = (blockedSt, false) :=
  ⟨by decide, ((c2_early_promotion_serializes blockedSt).2 (by decide)).2⟩

/-- C7: admission in `request`: with the spinlock held the request is
only appended to the Transmit Queue — the whole state is otherwise
unchanged and nothing reaches the wire — and with the spinlock idle the
lock is claimed and the dispatch happens synchronously in the same
call: the frame is sent, the response listener attached and both timers
armed, with the Transmit Queue untouched. -/
theorem c7_admission_gate (st : St) (r s c : Nat) :
    (st.spinLock = true →
      requestStep st r s c = { st with txQueue := st.txQueue ++ [⟨s, c, r⟩] }) ∧
    (st.spinLock = false →
      (requestStep st r s c).spinLock = true ∧
      (requestStep st r s c).sent = st.sent ++ [⟨r, s, c⟩] ∧
      (requestStep st r s c).listeners = st.listeners ++ [⟨r, s, c⟩] ∧
      (requestStep st r s c).hardArmed = st.hardArmed ++ [⟨r, s, c⟩] ∧
      (requestStep st r s c).promoArmed = st.promoArmed ++ [⟨r, s, c⟩] ∧
      (requestStep st r s c).txQueue = st.txQueue) := by
  constructor
  · intro h
    simp [requestStep, h]
  · intro h
    simp [requestStep, h, sendSREQ]

/-- Witness for C7: both admission branches at concrete states. -/
theorem c7_admission_gate_witness :
    requestStep { St.start with spinLock := true } 7 2 3
      = { { St.start with spinLock := true } with
          txQueue := ({ St.start with spinLock := true } : St).txQueue ++ [⟨2, 3, 7⟩] } ∧
    (requestStep St.start 7 2 3).spinLock = true ∧
    (requestStep St.start 7 2 3).sent = St.start.sent ++ [⟨7, 2, 3⟩] :=
  ⟨(c7_admission_gate { St.start with spinLock := true } 7 2 3).1 rfl,
   ((c7_admission_gate St.start 7 2 3).2 rfl).1,
   ((c7_admission_gate St.start 7 2 3).2 rfl).2.1⟩

/-- C9: the settle handler clears the `_resetting` flag on every
successful reply, whatever the settling transaction is and whatever the
flag was — in particular the success of a request unrelated to any
reset clears the Reset State of a pending reset. -/
theorem c9_success_clears_resetting (st : St) (t : Txn) :
    (settleHandler st t SettleResult.success).resetting = false := by
  unfold settleHandler
  simp

/-- C10: when the deferred retry closure of a queued entry re-invokes
`request` on an engine that has been closed (reverted to
uninitialized), the inner call throws, the closure catches the
exception and delivers it to the callback of the request, and the
scheduler-level step returns normally — the resulting state is total,
with the error logged as a callback delivery. -/
theorem c10_retry_closure_catches (st : St) (e : Entry) (h : st.inited = false) :
    requestJs st e.reqId e.subsys e.cmd
      = Except.error "ccznp has not been initialized yet" ∧
    entryFn st e
      = { st with cbErrLog := st.cbErrLog ++ [(e.reqId, "ccznp has not been initialized yet")] } := by
  constructor
  · simp [requestJs, h]
  · simp [entryFn, requestJs, h]

/-- Witness for C10 at a concrete closed engine and entry. -/
theorem c10_retry_closure_catches_witness :
    ({ St.start with inited := false } : St).inited = false ∧
    entryFn { St.start with inited := false } ⟨1, 2, 3⟩
      = { { St.start with inited := false } with
          cbErrLog := ({ St.start with inited := false } : St).cbErrLog
            ++ [(3, "ccznp has not been initialized yet")] } :=
  ⟨rfl, (c10_retry_closure_catches { St.start with inited := false } ⟨1, 2, 3⟩ rfl).2⟩

theorem jsIndexOfAux_entries (l : List (Nat × Nat × Nat)) (tg : Nat) :
    ∀ i : Int, jsIndexOfAux (entriesOnly l) (BVal.arrObj tg) i = -1 := by
  induction l with
  | nil => intro i; rfl
  | cons e l ih =>
    intro i
    simp only [entriesOnly, List.map_cons, jsIndexOfAux, jsEq]
    exact ih (i + 1)

/-- C3: the settle-time sweep is a no-op on every live backlog.  The
snapshot of line 286 is `new Array(this._backlog)` — a one-element
array holding a reference to the live backlog array itself rather than
a copy of its entries — and `indexOf` compares that array reference
against the entry objects the backlog holds, so it never finds it: no
entry is ever force-resolved and none is removed, contradicting the
stated sweep (and the code comment at lines 334-335 announcing
timeouts for past events). -/
theorem c3_sweep_noop (l : List (Nat × Nat × Nat)) (tg : Nat) :
    backlogSweep (jsNewArray (BVal.arrObj tg)) (entriesOnly l) = (entriesOnly l, []) := by
  unfold backlogSweep jsNewArray
  simp [jsIndexOf, jsIndexOfAux_entries]

/-- C4 counterexample: a checksum-mismatched frame does produce an
observable emission — the unconditional pre-dispatch `data` event of
line 455, fired before the checksum is tested — so the claim that no
event is emitted and no subscriber notified fails at `badFrame`. -/
theorem c4_counterexample :
    badFrame.fcs ≠ badFrame.csum ∧
    parseMtIncomingData (fun _ _ => none) (fun _ => none)
        (fun _ _ => Except.error ()) (fun _ _ => true) badFrame
      = [Emission.dataEvt badFrame] ∧
    parseMtIncomingData (fun _ _ => none) (fun _ => none)
        (fun _ _ => Except.error ()) (fun _ _ => true) badFrame ≠ [] :=
  ⟨by decide, by decide, by decide⟩

/-- C4 (amended): a checksum-mismatched frame yields exactly the
unconditional pre-dispatch `data` event and nothing else — no
correlation event, no notification, no reset event — so no pending
transaction can be settled or otherwise affected by it, whatever the
translator oracles and listeners are. -/
theorem c4_checksum_drop (resolveCmd : Nat → Nat → Option (Nat × Nat))
    (typeOf : Nat → Option CmdType)
    (decodeP : CmdType → List Nat → Except Unit (List Nat))
    (hasListener : Nat → Nat → Bool) (f : Frame) (h : f.fcs ≠ f.csum) :
    parseMtIncomingData resolveCmd typeOf decodeP hasListener f = [Emission.dataEvt f] := by
  unfold parseMtIncomingData
  rw [if_pos h]

/-- Witness for C4 (amended) at `badFrame`. -/
theorem c4_checksum_drop_witness :
    badFrame.fcs ≠ badFrame.csum ∧
    parseMtIncomingData (fun _ _ => some (0, 0)) (fun _ => some CmdType.SRSP)
        (fun _ p => Except.ok p) (fun _ _ => true) badFrame
      = [Emission.dataEvt badFrame] :=
  ⟨by decide, c4_checksum_drop _ _ _ _ badFrame (by decide)⟩

/-- C5 counterexample: a command-resolution failure of the schema
translator (`new ZpiObject(subsys, cmd, valObj)` at line 229 throwing)
propagates as a synchronous exception of the `request` call instead of
a callback delivery — `requestBuild` yields `Except.error`, refuting
the claim that every translator failure is delivered via the callback
and never thrown. -/
theorem c5_counterexample :
    ¬ ∀ (resolve : Except String ZType) (frame : Option (List Nat)),
        ∃ out, requestBuild resolve frame = Except.ok out := by
  intro hall
  obtain ⟨out, hout⟩ := hall (Except.error "unrecognized command") none
  simp [requestBuild] at hout

/-- C5 (amended): an encoding failure — `argObj.frame()` yielding no
payload — is delivered to the callback as a build error and the
transaction never reaches the wire; only command-resolution failures
are thrown synchronously. -/
theorem c5_build_error_via_callback (ty : ZType) :
    requestBuild (Except.ok ty) none = Except.ok ReqOutcome.cbBuildError := by
  cases ty <;> rfl

theorem areqStep_queue (st : AreqSt) (ev : AreqEv) :
    (areqStep st ev).txQueue = st.txQueue ∧ (areqStep st ev).qcbLog = st.qcbLog := by
  cases ev <;> simp only [areqStep] <;> split_ifs <;> simp

theorem runAreq_nil (st : AreqSt) : runAreq st [] = st := rfl

theorem runAreq_cons (st : AreqSt) (ev : AreqEv) (evs : List AreqEv) :
    runAreq st (ev :: evs) = runAreq (areqStep st ev) evs := rfl

theorem runAreq_queue (evs : List AreqEv) : ∀ st : AreqSt,
    (runAreq st evs).txQueue = st.txQueue ∧ (runAreq st evs).qcbLog = st.qcbLog := by
  induction evs with
  | nil => intro st; exact ⟨rfl, rfl⟩
  | cons ev evs ih =>
    intro st
    have h1 := areqStep_queue st ev
    have h2 := ih (areqStep st ev)
    exact ⟨h2.1.trans h1.1, h2.2.trans h1.2⟩

theorem runAreq_noReset (evs : List AreqEv) : ∀ st : AreqSt,
    AreqEv.resetInd ∉ evs →
    st.resetting = true →
    (st.failsafeArmed = true ∨ st.spinLock = false) →
      (runAreq st evs).resetting = true ∧
      (runAreq st evs).resetCb = st.resetCb ∧
      (runAreq st evs).resetListener = st.resetListener ∧
      (runAreq st evs).spinLock
        = (if AreqEv.failsafe ∈ evs then false else st.spinLock) := by
  induction evs with
  | nil =>
    intro st _ h _
    exact ⟨h, rfl, rfl, by simp [runAreq_nil]⟩
  | cons ev evs ih =>
    intro st hni h harm
    rw [runAreq_cons]
    have hni' : AreqEv.resetInd ∉ evs := fun hm => hni (List.mem_cons_of_mem _ hm)
    cases ev with
    | resetInd => exact absurd (List.mem_cons_self _ _) hni
    | failsafe =>
      by_cases ha : st.failsafeArmed
      · have hstep : areqStep st AreqEv.failsafe
            = { st with failsafeArmed := false, spinLock := false } := by
          simp [areqStep, ha, h]
        have := ih (areqStep st AreqEv.failsafe) hni' (by rw [hstep]; exact h)
          (by rw [hstep]; exact Or.inr rfl)
        refine ⟨this.1, this.2.1.trans (by rw [hstep]), this.2.2.1.trans (by rw [hstep]), ?_⟩
        rw [this.2.2.2, hstep]
        by_cases hmem : AreqEv.failsafe ∈ evs <;> simp [hmem]
      · have hspin : st.spinLock = false := harm.resolve_left ha
        have hstep : areqStep st AreqEv.failsafe = st := by
          simp [areqStep, ha]
        have := ih (areqStep st AreqEv.failsafe) hni' (by rw [hstep]; exact h)
          (by rw [hstep]; exact Or.inr hspin)
        refine ⟨this.1, this.2.1.trans (by rw [hstep]), this.2.2.1.trans (by rw [hstep]), ?_⟩
        rw [this.2.2.2, hstep]
        by_cases hmem : AreqEv.failsafe ∈ evs <;> simp [hmem, hspin]

theorem runAreq_postReset (evs : List AreqEv) : ∀ st : AreqSt,
    st.resetListener = false → st.resetting = false → st.spinLock = false →
      (runAreq st evs).resetCb = st.resetCb ∧
      (runAreq st evs).resetListener = false ∧
      (runAreq st evs).resetting = false ∧
      (runAreq st evs).spinLock = false := by
  induction evs with
  | nil => intro st h1 h2 h3; exact ⟨rfl, h1, h2, h3⟩
  | cons ev evs ih =>
    intro st h1 h2 h3
    cases ev with
    | resetInd =>
      have hstep : areqStep st AreqEv.resetInd = st := by
        simp [areqStep, h1]
      have := ih (areqStep st AreqEv.resetInd) (by rw [hstep]; exact h1)
        (by rw [hstep]; exact h2) (by rw [hstep]; exact h3)
      exact ⟨this.1.trans (by rw [hstep]), this.2.1, this.2.2.1, this.2.2.2⟩
    | failsafe =>
      have hstep : (areqStep st AreqEv.failsafe).resetListener = st.resetListener ∧
          (areqStep st AreqEv.failsafe).resetting = st.resetting ∧
          (areqStep st AreqEv.failsafe).spinLock = st.spinLock ∧
          (areqStep st AreqEv.failsafe).resetCb = st.resetCb := by
        unfold areqStep
        repeat' split
        all_goals simp_all
      have := ih (areqStep st AreqEv.failsafe) (hstep.1.trans h1)
        (hstep.2.1.trans h2) (hstep.2.2.1.trans h3)
      exact ⟨this.1.trans hstep.2.2.2, this.2.1, this.2.2.1, this.2.2.2⟩

theorem runAreq_withReset (evs : List AreqEv) : ∀ st : AreqSt,
    AreqEv.resetInd ∈ evs →
    st.resetListener = true → st.resetCb = [] → st.resetting = true →
      (runAreq st evs).resetCb = [true] ∧ (runAreq st evs).spinLock = false := by
  induction evs with
  | nil => intro st h; simp at h
  | cons ev evs ih =>
    intro st hmem hl hcb hr
    cases ev with
    | resetInd =>
      have hstep : areqStep st AreqEv.resetInd
          = { st with
              resetListener := false, resetting := false, spinLock := false,
              resetCb := st.resetCb ++ [true] } := by
        simp [areqStep, hl]
      have hpost := runAreq_postReset evs (areqStep st AreqEv.resetInd)
        (by rw [hstep]) (by rw [hstep]) (by rw [hstep])
      refine ⟨hpost.1.trans ?_, hpost.2.2.2⟩
      rw [hstep]
      simp [hcb]
    | failsafe =>
      have hmem' : AreqEv.resetInd ∈ evs := by
        rcases List.mem_cons.mp hmem with h | h
        · exact absurd h (by simp)
        · exact h
      have hstep : (areqStep st AreqEv.failsafe).resetListener = st.resetListener ∧
          (areqStep st AreqEv.failsafe).resetting = st.resetting ∧
          (areqStep st AreqEv.failsafe).resetCb = st.resetCb := by
        unfold areqStep
        repeat' split
        all_goals simp_all
      exact ih (areqStep st AreqEv.failsafe) hmem' (hstep.1.trans hl)
        (hstep.2.2.trans hcb) (hstep.2.1.trans hr)

/-- C6: issuing the device-reset fire-and-forget command discards every
Transmit Queue entry, and their callbacks never fire (the queued-entry
callback log stays empty over every continuation); the reset caller is
invoked, with success, exactly when the reset-completion notification
arrives — with no notification the callback log stays empty, while the
30000 ms fail-safe still force-releases the Admission Gate. -/
theorem c6_reset_path (q : List Entry) (evs : List AreqEv) :
    (runAreq (sendAREQreset (areqStart q)) evs).txQueue = [] ∧
    (runAreq (sendAREQreset (areqStart q)) evs).qcbLog = [] ∧
    (AreqEv.resetInd ∉ evs →
      (runAreq (sendAREQreset (areqStart q)) evs).resetCb = [] ∧
      (AreqEv.failsafe ∈ evs →
        (runAreq (sendAREQreset (areqStart q)) evs).spinLock = false)) ∧
    (AreqEv.resetInd ∈ evs →
      (runAreq (sendAREQreset (areqStart q)) evs).resetCb = [true] ∧
      (runAreq (sendAREQreset (areqStart q)) evs).spinLock = false) := by
  have hq := runAreq_queue evs (sendAREQreset (areqStart q))
  refine ⟨hq.1.trans rfl, hq.2.trans rfl, ?_, ?_⟩
  · intro hni
    have := runAreq_noReset evs (sendAREQreset (areqStart q)) hni rfl (Or.inl rfl)
    refine ⟨this.2.1.trans rfl, ?_⟩
    intro hmem
    rw [this.2.2.2, if_pos hmem]
  · intro hmem
    exact runAreq_withReset evs (sendAREQreset (areqStart q)) hmem rfl rfl rfl

/-- Witness for C6: three queued requests, fail-safe fires, no
notification: queue discarded, no callback delivery anywhere, gate
released. -/
theorem c6_reset_path_witness :
    AreqEv.resetInd ∉ [AreqEv.failsafe] ∧
    AreqEv.failsafe ∈ [AreqEv.failsafe] ∧
    (runAreq (sendAREQreset (areqStart [⟨0, 0, 10⟩, ⟨0, 1, 11⟩, ⟨0, 2, 12⟩]))
      [AreqEv.failsafe]).txQueue = [] ∧
    (runAreq (sendAREQreset (areqStart [⟨0, 0, 10⟩, ⟨0, 1, 11⟩, ⟨0, 2, 12⟩]))
      [AreqEv.failsafe]).resetCb = [] ∧
    (runAreq (sendAREQreset (areqStart [⟨0, 0, 10⟩, ⟨0, 1, 11⟩, ⟨0, 2, 12⟩]))
      [AreqEv.failsafe]).spinLock = false :=
  ⟨by decide, by decide,
   (c6_reset_path [⟨0, 0, 10⟩, ⟨0, 1, 11⟩, ⟨0, 2, 12⟩] [AreqEv.failsafe]).1,
   ((c6_reset_path [⟨0, 0, 10⟩, ⟨0, 1, 11⟩, ⟨0, 2, 12⟩] [AreqEv.failsafe]).2.2.1
     (by decide)).1,
   ((c6_reset_path [⟨0, 0, 10⟩, ⟨0, 1, 11⟩, ⟨0, 2, 12⟩] [AreqEv.failsafe]).2.2.1
     (by decide)).2 (by decide)⟩

theorem closeCall_fold (cbs : List Nat) : ∀ st : CloseSt,
    st.spOpen = true → st.closeCbs ≠ [] →
      (cbs.foldl closeCall st).spOpen = true ∧
      (cbs.foldl closeCall st).closeCbs = st.closeCbs ++ cbs ∧
      (cbs.foldl closeCall st).spCloseCount = st.spCloseCount ∧
      (cbs.foldl closeCall st).invoked = st.invoked := by
  induction cbs with
  | nil => intro st h1 _; exact ⟨h1, by simp, rfl, rfl⟩
  | cons cb cbs ih =>
    intro st h1 h2
    have hlen : (st.closeCbs ++ [cb]).length ≠ 1 := by
      cases hc : st.closeCbs with
      | nil => exact absurd hc h2
      | cons a l => simp
    have hstep : closeCall st cb = { st with closeCbs := st.closeCbs ++ [cb] } := by
      unfold closeCall
      rw [if_neg (by simp [h1])]
      simp only []
      rw [if_neg hlen]
    have := ih (closeCall st cb) (by rw [hstep]; exact h1) (by rw [hstep]; simp)
    refine ⟨this.1, this.2.1.trans ?_, this.2.2.1.trans (by rw [hstep]),
      this.2.2.2.trans (by rw [hstep])⟩
    rw [hstep]
    simp

/-- C8: every set of `close` calls arriving while the first close is
still completing is coalesced: the underlying `sp.close` is initiated
exactly once, no callback fires before completion, and on completion
every caller callback fires, in call order. -/
theorem c8_close_coalesced (cbs : List Nat) (h : cbs ≠ []) :
    (cbs.foldl closeCall closeStart).spCloseCount = 1 ∧
    (cbs.foldl closeCall closeStart).invoked = [] ∧
    (closeComplete (cbs.foldl closeCall closeStart)).invoked = cbs ∧
    (closeComplete (cbs.foldl closeCall closeStart)).spCloseCount = 1 := by
  cases cbs with
  | nil => exact absurd rfl h
  | cons cb cbs =>
    have h1 : closeCall closeStart cb
        = { spOpen := true, closeCbs := [cb], spCloseCount := 1, invoked := [] } := rfl
    have h2 := closeCall_fold cbs
      { spOpen := true, closeCbs := [cb], spCloseCount := 1, invoked := [] } rfl (by simp)
    simp only [List.foldl_cons, h1]
    refine ⟨h2.2.2.1, h2.2.2.2, ?_, ?_⟩
    · unfold closeComplete
      rw [h2.2.2.2, h2.2.1]
      simp
    · unfold closeComplete
      exact h2.2.2.1

/-- Witness for C8: three concurrent close calls. -/
theorem c8_close_coalesced_witness :
    ([5, 6, 7] : List Nat) ≠ [] ∧
    ([5, 6, 7].foldl closeCall closeStart).spCloseCount = 1 ∧
    (closeComplete ([5, 6, 7].foldl closeCall closeStart)).invoked = [5, 6, 7] :=
  ⟨by decide, (c8_close_coalesced [5, 6, 7] (by decide)).1,
   (c8_close_coalesced [5, 6, 7] (by decide)).2.2.1⟩

end CcZnp
